import Mathlib

/-!
Shallow embedding of `src/custom_colormaps/custom_colormaps.py`.

Channel intensities and stop positions are modelled as rationals (`ℚ`).
The NumPy conversion `np.array(colors, dtype='f')` is modelled as the
identity on the list of triples; `np.linspace`, `np.isclose` and the
in-place update `colors[:] = ...` are modelled exactly, over `ℚ`.

`create_colormap` distinguishes the container the caller used for
`position` (plain Python list vs `np.ndarray`), because the source code
branches on `isinstance(position, np.ndarray)`: a list is converted with
`np.array(position)` and then *skips* the validation `else` branch, while
an ndarray goes through the length and endpoint checks.

Whether `colors` was passed as an ndarray is tracked by a Boolean flag,
because `colors[:] = ...` (line 67) writes through to the caller's buffer
exactly when no copying conversion happened, i.e. when `colors` was
already an ndarray (the reversal `colors[::-1]` is a view of the same
buffer, so writing the reversed scaled rows into the view leaves the
caller's buffer holding the scaled rows in the original order).
-/

namespace CustomColormaps

/-- An RGB triple: one row of the `colors` array. -/
abbrev RGB : Type := ℚ × ℚ × ℚ

/-- One anchor entry `(position, value_left, value_right)` of a channel table. -/
abbrev Anchor : Type := ℚ × ℚ × ℚ

/-- Models `np.isclose(a, b)` with the default tolerances `rtol = 1e-5` and
`atol = 1e-8`: the test `|a - b| <= atol + rtol * |b|`. -/
def npIsClose (a b : ℚ) : Bool :=
  decide (|a - b| ≤ 1 / 100000000 + (1 / 100000) * |b|)

/-- Models `np.linspace(0, 1, n)`: the `n` equally spaced values `i / (n - 1)`.
For `n = 1` NumPy returns `[0.0]`, which agrees with `0 / 0 = 0` in `ℚ`. -/
def linspace01 (n : ℕ) : List ℚ :=
  (List.range n).map (fun i : ℕ => (i : ℚ) / ((n : ℚ) - 1))

/-- Divide every channel of a row by 255 (the 8-bit normalization of line 67). -/
def scale255 (c : RGB) : RGB :=
  (c.1 / 255, c.2.1 / 255, c.2.2 / 255)

/-- How the caller supplied the `position` argument: absent, a plain Python
list, or a NumPy ndarray.  The source branches on this at lines 57-65. -/
inductive PosInput : Type where
  | noPos : PosInput
  | pylist : List ℚ → PosInput
  | ndarray : List ℚ → PosInput
deriving DecidableEq, Repr

/-- The output colormap: `LinearSegmentedColormap(name, cdict, 256)` is kept
abstractly as its name, the three channel anchor tables of `cdict`, and the
sampling resolution `N`. -/
structure Gradient : Type where
  gname : String
  red : List Anchor
  green : List Anchor
  blue : List Anchor
  resolution : ℕ
deriving DecidableEq, Repr

/-- Lines 57-65: resolve the `position` argument against `n = colors.shape[0]`
(the length after the optional reversal).  A plain list is converted with
`np.array(position)` and skips validation; `None` becomes
`np.linspace(0, 1, n)`; an ndarray is validated: first the length check,
then the endpoint check, which fires only when *both* endpoints are wrong
(`and`, lines 64-65). -/
def resolvePos (p : PosInput) (n : ℕ) : Except String (List ℚ) :=
  match p with
  | .pylist ps => .ok ps
  | .noPos => .ok (linspace01 n)
  | .ndarray ps =>
      if ps.length != n then
        .error "position length must be the same as colors"
      else if (!npIsClose (ps.headD 0) 0) && (!npIsClose (ps.getLastD 0) 1) then
        .error "position must start with 0 and end with 1"
      else
        .ok ps

/-- Lines 68-73: build `cdict` by zipping positions with colors (`zip`
truncates to the shorter list, as in Python) and package it as the
colormap with resolution 256. -/
def gradientOf (nm : String) (pos : List ℚ) (cs : List RGB) : Gradient :=
  let anchors := pos.zip cs
  { gname := nm
    red := anchors.map (fun pc => (pc.1, pc.2.1, pc.2.1))
    green := anchors.map (fun pc => (pc.1, pc.2.2.1, pc.2.2.1))
    blue := anchors.map (fun pc => (pc.1, pc.2.2.2, pc.2.2.2))
    resolution := 256 }

/-- The whole of `create_colormap` (lines 53-73).  Returns the `Except`
result together with the caller-visible contents of the `colors` argument
after the call: `colors[:] = ...` (line 67) mutates the caller's buffer
exactly when `colors` was passed as an ndarray, `bit` is set, and no
validation error was raised before line 67. -/
def create_colormap_run (colors : List RGB) (colorsIsNdarray : Bool)
    (position : PosInput) (bit reverse : Bool) (nm : String) :
    Except String Gradient × List RGB :=
  match resolvePos position
      (if reverse then colors.reverse else colors).length with
  | .error e => (.error e, colors)
  | .ok pos =>
      (.ok (gradientOf nm pos
        (if bit then (if reverse then colors.reverse else colors).map scale255
         else (if reverse then colors.reverse else colors))),
       if colorsIsNdarray && bit then colors.map scale255 else colors)

/-- The value returned (or the error raised) by `create_colormap`. -/
def create_colormap (colors : List RGB) (colorsIsNdarray : Bool)
    (position : PosInput) (bit reverse : Bool) (nm : String) :
    Except String Gradient :=
  (create_colormap_run colors colorsIsNdarray position bit reverse nm).1

/-- The caller's `colors` buffer after `create_colormap` returns. -/
def callerColorsAfter (colors : List RGB) (colorsIsNdarray : Bool)
    (position : PosInput) (bit reverse : Bool) (nm : String) : List RGB :=
  (create_colormap_run colors colorsIsNdarray position bit reverse nm).2

/-- Holds (as `true`) exactly when the call raised, i.e. a `ValueError` in
the source. -/
def isErr (r : Except String Gradient) : Bool :=
  match r with
  | .error _ => true
  | .ok _ => false

/-- Result of `colormap_tuple`: either the list of RGB tuples or a colormap. -/
inductive TupleOrCmap : Type where
  | tuples : List RGB → TupleOrCmap
  | cmap : Except String Gradient → TupleOrCmap
deriving Repr

/-- Models the list comprehension of lines 103 and 105, which rebuilds the
tuple `(a[i,0], a[i,1], a[i,2])` for each row index, with the parsed
`txt_array` modelled as a list of rows of three columns. -/
def extractTuples (txt : List RGB) : List RGB :=
  (List.range txt.length).map (fun i => txt.getD i (0, 0, 0))

/-- Lines 100-105 of `colormap_tuple`, taking the `np.genfromtxt` output as
its `txt` argument.  When `return_cmap` is true it calls `create_colormap`
on the freshly built Python list of tuples (so `colorsIsNdarray = false`),
with `bit = True` and all other arguments at their defaults; otherwise it
returns the tuple list (`return_tuple` is never consulted by the source). -/
def colormap_tuple (txt : List RGB) (return_tuple return_cmap : Bool) :
    TupleOrCmap :=
  if return_cmap then
    .cmap (create_colormap (extractTuples txt) false .noPos true false
      "custom_colormap")
  else
    .tuples (extractTuples txt)

section Helpers

variable {colors cs : List RGB} {ps pos : List ℚ} {b bit rev : Bool}
variable {nm : String} {p : PosInput}

lemma length_if_reverse (rev : Bool) (colors : List RGB) :
    (if rev then colors.reverse else colors).length = colors.length := by
  cases rev <;> simp

lemma linspace01_length (n : ℕ) : (linspace01 n).length = n := by
  rw [linspace01, List.length_map, List.length_range]

lemma resolvePos_noPos (n : ℕ) : resolvePos .noPos n = .ok (linspace01 n) := rfl

lemma resolvePos_pylist (ps : List ℚ) (n : ℕ) :
    resolvePos (.pylist ps) n = .ok ps := rfl

lemma create_colormap_eq_of_resolve (colors : List RGB) (b : Bool) (p : PosInput)
    (bit rev : Bool) (nm : String) (pos : List ℚ)
    (h : resolvePos p (if rev then colors.reverse else colors).length = .ok pos) :
    create_colormap colors b p bit rev nm =
      .ok (gradientOf nm pos
        (if bit then (if rev then colors.reverse else colors).map scale255
         else (if rev then colors.reverse else colors))) := by
  simp only [create_colormap, create_colormap_run]
  rw [h]

lemma isErr_false_iff (r : Except String Gradient) :
    isErr r = false ↔ ∃ g, r = .ok g := by
  cases r <;> simp [isErr]

lemma gradientOf_red_length (nm : String) (pos : List ℚ) (cs : List RGB) :
    (gradientOf nm pos cs).red.length = min pos.length cs.length := by
  simp [gradientOf]

lemma gradientOf_green_length (nm : String) (pos : List ℚ) (cs : List RGB) :
    (gradientOf nm pos cs).green.length = min pos.length cs.length := by
  simp [gradientOf]

lemma gradientOf_blue_length (nm : String) (pos : List ℚ) (cs : List RGB) :
    (gradientOf nm pos cs).blue.length = min pos.length cs.length := by
  simp [gradientOf]

lemma gradientOf_red_map_fst (nm : String) (pos : List ℚ) (cs : List RGB)
    (h : pos.length ≤ cs.length) :
    (gradientOf nm pos cs).red.map Prod.fst = pos := by
  simp only [gradientOf, List.map_map]
  exact List.map_fst_zip pos cs h

lemma gradientOf_green_map_fst (nm : String) (pos : List ℚ) (cs : List RGB)
    (h : pos.length ≤ cs.length) :
    (gradientOf nm pos cs).green.map Prod.fst = pos := by
  simp only [gradientOf, List.map_map]
  exact List.map_fst_zip pos cs h

lemma gradientOf_blue_map_fst (nm : String) (pos : List ℚ) (cs : List RGB)
    (h : pos.length ≤ cs.length) :
    (gradientOf nm pos cs).blue.map Prod.fst = pos := by
  simp only [gradientOf, List.map_map]
  exact List.map_fst_zip pos cs h

lemma gradientOf_red_values (nm : String) (pos : List ℚ) (cs : List RGB)
    (h : cs.length ≤ pos.length) :
    (gradientOf nm pos cs).red.map (fun t => t.2.1) = cs.map (fun c => c.1) := by
  simp only [gradientOf, List.map_map]
  have hc : ((fun t : Anchor => t.2.1) ∘
        (fun pc : ℚ × RGB => (pc.1, pc.2.1, pc.2.1)))
      = (fun c : RGB => c.1) ∘ Prod.snd := rfl
  rw [hc, ← List.map_map, List.map_snd_zip pos cs h]

lemma gradientOf_green_values (nm : String) (pos : List ℚ) (cs : List RGB)
    (h : cs.length ≤ pos.length) :
    (gradientOf nm pos cs).green.map (fun t => t.2.1)
      = cs.map (fun c => c.2.1) := by
  simp only [gradientOf, List.map_map]
  have hc : ((fun t : Anchor => t.2.1) ∘
        (fun pc : ℚ × RGB => (pc.1, pc.2.2.1, pc.2.2.1)))
      = (fun c : RGB => c.2.1) ∘ Prod.snd := rfl
  rw [hc, ← List.map_map, List.map_snd_zip pos cs h]

lemma gradientOf_blue_values (nm : String) (pos : List ℚ) (cs : List RGB)
    (h : cs.length ≤ pos.length) :
    (gradientOf nm pos cs).blue.map (fun t => t.2.1)
      = cs.map (fun c => c.2.2) := by
  simp only [gradientOf, List.map_map]
  have hc : ((fun t : Anchor => t.2.1) ∘
        (fun pc : ℚ × RGB => (pc.1, pc.2.2.2, pc.2.2.2)))
      = (fun c : RGB => c.2.2) ∘ Prod.snd := rfl
  rw [hc, ← List.map_map, List.map_snd_zip pos cs h]

lemma gradientOf_red_getD (nm : String) (pos : List ℚ) (cs : List RGB)
    (i : ℕ) (hp : i < pos.length) (hc : i < cs.length) :
    (gradientOf nm pos cs).red.getD i (0, 0, 0)
      = (pos.getD i 0, (cs.getD i (0, 0, 0)).1, (cs.getD i (0, 0, 0)).1) := by
  have hz : i < ((pos.zip cs).map
      (fun pc : ℚ × RGB => (pc.1, pc.2.1, pc.2.1))).length := by
    simp [List.length_zip]; exact ⟨hp, hc⟩
  show ((pos.zip cs).map
      (fun pc : ℚ × RGB => (pc.1, pc.2.1, pc.2.1))).getD i (0, 0, 0) = _
  rw [List.getD_eq_getElem _ _ hz, List.getElem_map, List.getElem_zip,
    List.getD_eq_getElem _ _ hp, List.getD_eq_getElem _ _ hc]

lemma gradientOf_green_getD (nm : String) (pos : List ℚ) (cs : List RGB)
    (i : ℕ) (hp : i < pos.length) (hc : i < cs.length) :
    (gradientOf nm pos cs).green.getD i (0, 0, 0)
      = (pos.getD i 0, (cs.getD i (0, 0, 0)).2.1, (cs.getD i (0, 0, 0)).2.1) := by
  have hz : i < ((pos.zip cs).map
      (fun pc : ℚ × RGB => (pc.1, pc.2.2.1, pc.2.2.1))).length := by
    simp [List.length_zip]; exact ⟨hp, hc⟩
  show ((pos.zip cs).map
      (fun pc : ℚ × RGB => (pc.1, pc.2.2.1, pc.2.2.1))).getD i (0, 0, 0) = _
  rw [List.getD_eq_getElem _ _ hz, List.getElem_map, List.getElem_zip,
    List.getD_eq_getElem _ _ hp, List.getD_eq_getElem _ _ hc]

lemma gradientOf_blue_getD (nm : String) (pos : List ℚ) (cs : List RGB)
    (i : ℕ) (hp : i < pos.length) (hc : i < cs.length) :
    (gradientOf nm pos cs).blue.getD i (0, 0, 0)
      = (pos.getD i 0, (cs.getD i (0, 0, 0)).2.2, (cs.getD i (0, 0, 0)).2.2) := by
  have hz : i < ((pos.zip cs).map
      (fun pc : ℚ × RGB => (pc.1, pc.2.2.2, pc.2.2.2))).length := by
    simp [List.length_zip]; exact ⟨hp, hc⟩
  show ((pos.zip cs).map
      (fun pc : ℚ × RGB => (pc.1, pc.2.2.2, pc.2.2.2))).getD i (0, 0, 0) = _
  rw [List.getD_eq_getElem _ _ hz, List.getElem_map, List.getElem_zip,
    List.getD_eq_getElem _ _ hp, List.getD_eq_getElem _ _ hc]

lemma length_colors2 (bit rev : Bool) (colors : List RGB) :
    (if bit then (if rev then colors.reverse else colors).map scale255
     else (if rev then colors.reverse else colors)).length = colors.length := by
  cases bit <;> cases rev <;> simp

lemma create_colormap_ok_inv (colors : List RGB) (b : Bool) (p : PosInput)
    (bit rev : Bool) (nm : String) (g : Gradient)
    (h : create_colormap colors b p bit rev nm = .ok g) :
    ∃ pos : List ℚ,
      resolvePos p (if rev then colors.reverse else colors).length = .ok pos ∧
      g = gradientOf nm pos
        (if bit then (if rev then colors.reverse else colors).map scale255
         else (if rev then colors.reverse else colors)) := by
  unfold create_colormap create_colormap_run at h
  cases hres : resolvePos p (if rev then colors.reverse else colors).length with
  | error e => rw [hres] at h; simp at h
  | ok pos =>
      rw [hres] at h
      simp only [Except.ok.injEq] at h
      exact ⟨pos, rfl, h.symm⟩

end Helpers

/-- C3: for every color sequence of length N ≥ 2 with no explicit positions,
create_colormap succeeds and produces exactly N anchor points per channel,
at positions i/(N-1) for i in 0..N-1 (equally spaced from 0 to 1
inclusive), for any container flag, bit flag and reverse flag. -/
theorem C3_equally_spaced_anchors (colors : List RGB) (b bit rev : Bool)
    (nm : String) (_hN : 2 ≤ colors.length) :
    ∃ g : Gradient,
      create_colormap colors b .noPos bit rev nm = .ok g ∧
      g.red.length = colors.length ∧
      g.green.length = colors.length ∧
      g.blue.length = colors.length ∧
      g.red.map Prod.fst = (List.range colors.length).map
        (fun i : ℕ => (i : ℚ) / ((colors.length : ℚ) - 1)) ∧
      g.green.map Prod.fst = (List.range colors.length).map
        (fun i : ℕ => (i : ℚ) / ((colors.length : ℚ) - 1)) ∧
      g.blue.map Prod.fst = (List.range colors.length).map
        (fun i : ℕ => (i : ℚ) / ((colors.length : ℚ) - 1)) := by
  have hres : resolvePos PosInput.noPos
      (if rev then colors.reverse else colors).length
      = .ok (linspace01 colors.length) := by
    rw [length_if_reverse]
    exact resolvePos_noPos colors.length
  have hok := create_colormap_eq_of_resolve colors b .noPos bit rev nm
    (linspace01 colors.length) hres
  have hlen : (if bit then (if rev then colors.reverse else colors).map scale255
      else (if rev then colors.reverse else colors)).length = colors.length :=
    length_colors2 bit rev colors
  refine ⟨_, hok, ?_, ?_, ?_, ?_, ?_, ?_⟩
  · rw [gradientOf_red_length, linspace01_length, hlen, min_self]
  · rw [gradientOf_green_length, linspace01_length, hlen, min_self]
  · rw [gradientOf_blue_length, linspace01_length, hlen, min_self]
  · rw [gradientOf_red_map_fst _ _ _ (by simp [linspace01_length, hlen])]
    rfl
  · rw [gradientOf_green_map_fst _ _ _ (by simp [linspace01_length, hlen])]
    rfl
  · rw [gradientOf_blue_map_fst _ _ _ (by simp [linspace01_length, hlen])]
    rfl

theorem C3_equally_spaced_anchors_witness :
    2 ≤ ([((0 : ℚ), 0, 0), (1, 1, 1)] : List RGB).length ∧
    ∃ g : Gradient,
      create_colormap [((0 : ℚ), 0, 0), (1, 1, 1)] false .noPos false false
        "custom_colormap" = .ok g ∧
      g.red.length = 2 ∧ g.green.length = 2 ∧ g.blue.length = 2 ∧
      g.red.map Prod.fst = (List.range 2).map
        (fun i : ℕ => (i : ℚ) / ((2 : ℚ) - 1)) ∧
      g.green.map Prod.fst = (List.range 2).map
        (fun i : ℕ => (i : ℚ) / ((2 : ℚ) - 1)) ∧
      g.blue.map Prod.fst = (List.range 2).map
        (fun i : ℕ => (i : ℚ) / ((2 : ℚ) - 1)) :=
  ⟨by decide,
   C3_equally_spaced_anchors [((0 : ℚ), 0, 0), (1, 1, 1)] false false false
     "custom_colormap" (by decide)⟩

/-- C5: with no explicit positions, reverse=True yields the same anchor
positions as reverse=False, while the anchor color order is exactly
reversed, for any bit flag and container flags. -/
theorem C5_reverse_flips_anchor_colors (colors : List RGB) (b b' bit : Bool)
    (nm : String) :
    ∃ g g' : Gradient,
      create_colormap colors b .noPos bit true nm = .ok g ∧
      create_colormap colors b' .noPos bit false nm = .ok g' ∧
      g.red.map Prod.fst = g'.red.map Prod.fst ∧
      g.green.map Prod.fst = g'.green.map Prod.fst ∧
      g.blue.map Prod.fst = g'.blue.map Prod.fst ∧
      g.red.map (fun t => t.2.1) = (g'.red.map (fun t => t.2.1)).reverse ∧
      g.green.map (fun t => t.2.1) = (g'.green.map (fun t => t.2.1)).reverse ∧
      g.blue.map (fun t => t.2.1) = (g'.blue.map (fun t => t.2.1)).reverse := by
  have hok1 : create_colormap colors b .noPos bit true nm
      = .ok (gradientOf nm (linspace01 colors.length)
          (if bit then colors.reverse.map scale255 else colors.reverse)) := by
    simpa using create_colormap_eq_of_resolve colors b .noPos bit true nm
      (linspace01 colors.length)
      (by rw [length_if_reverse]; exact resolvePos_noPos colors.length)
  have hok2 : create_colormap colors b' .noPos bit false nm
      = .ok (gradientOf nm (linspace01 colors.length)
          (if bit then colors.map scale255 else colors)) := by
    simpa using create_colormap_eq_of_resolve colors b' .noPos bit false nm
      (linspace01 colors.length)
      (by rw [length_if_reverse]; exact resolvePos_noPos colors.length)
  have hR : (if bit then colors.reverse.map scale255 else colors.reverse)
      = (if bit then colors.map scale255 else colors).reverse := by
    cases bit <;> simp
  have hlen2 : (if bit then colors.map scale255 else colors).length
      = colors.length := by
    cases bit <;> simp
  have hlenR : (if bit then colors.reverse.map scale255 else colors.reverse).length
      = colors.length := by
    cases bit <;> simp
  refine ⟨_, _, hok1, hok2, ?_, ?_, ?_, ?_, ?_, ?_⟩
  · rw [gradientOf_red_map_fst _ _ _ (by cases bit <;> simp [linspace01_length]),
      gradientOf_red_map_fst _ _ _ (by cases bit <;> simp [linspace01_length])]
  · rw [gradientOf_green_map_fst _ _ _ (by cases bit <;> simp [linspace01_length]),
      gradientOf_green_map_fst _ _ _ (by cases bit <;> simp [linspace01_length])]
  · rw [gradientOf_blue_map_fst _ _ _ (by cases bit <;> simp [linspace01_length]),
      gradientOf_blue_map_fst _ _ _ (by cases bit <;> simp [linspace01_length])]
  · rw [gradientOf_red_values _ _ _ (by cases bit <;> simp [linspace01_length]),
      gradientOf_red_values _ _ _ (by cases bit <;> simp [linspace01_length]),
      hR, List.map_reverse]
  · rw [gradientOf_green_values _ _ _ (by cases bit <;> simp [linspace01_length]),
      gradientOf_green_values _ _ _ (by cases bit <;> simp [linspace01_length]),
      hR, List.map_reverse]
  · rw [gradientOf_blue_values _ _ _ (by cases bit <;> simp [linspace01_length]),
      gradientOf_blue_values _ _ _ (by cases bit <;> simp [linspace01_length]),
      hR, List.map_reverse]

/-- C7: whenever create_colormap succeeds, every entry of every channel
table has equal second and third components (left limit equals right
limit), so no channel has a left/right discontinuity at an anchor. -/
theorem C7_anchor_single_value (colors : List RGB) (b : Bool) (p : PosInput)
    (bit rev : Bool) (nm : String)
    (h : isErr (create_colormap colors b p bit rev nm) = false) :
    ∃ g : Gradient,
      create_colormap colors b p bit rev nm = .ok g ∧
      (∀ t ∈ g.red, t.2.1 = t.2.2) ∧
      (∀ t ∈ g.green, t.2.1 = t.2.2) ∧
      (∀ t ∈ g.blue, t.2.1 = t.2.2) := by
  obtain ⟨g, hg⟩ := (isErr_false_iff _).1 h
  obtain ⟨pos, -, hshape⟩ := create_colormap_ok_inv colors b p bit rev nm g hg
  subst hshape
  refine ⟨_, hg, ?_, ?_, ?_⟩
  · intro t ht
    simp only [gradientOf, List.mem_map] at ht
    obtain ⟨pc, -, rfl⟩ := ht
    rfl
  · intro t ht
    simp only [gradientOf, List.mem_map] at ht
    obtain ⟨pc, -, rfl⟩ := ht
    rfl
  · intro t ht
    simp only [gradientOf, List.mem_map] at ht
    obtain ⟨pc, -, rfl⟩ := ht
    rfl

theorem C7_anchor_single_value_witness :
    isErr (create_colormap [((1 : ℚ), 0, 0), (0, 1, 0)] false .noPos false
      false "custom_colormap") = false ∧
    ∃ g : Gradient,
      create_colormap [((1 : ℚ), 0, 0), (0, 1, 0)] false .noPos false false
        "custom_colormap" = .ok g ∧
      (∀ t ∈ g.red, t.2.1 = t.2.2) ∧
      (∀ t ∈ g.green, t.2.1 = t.2.2) ∧
      (∀ t ∈ g.blue, t.2.1 = t.2.2) :=
  ⟨rfl,
   C7_anchor_single_value [((1 : ℚ), 0, 0), (0, 1, 0)] false .noPos false
     false "custom_colormap" rfl⟩

/-- C8: every successful call returns a Gradient sampled at exactly 256
levels and tagged with the supplied name. -/
theorem C8_resolution_256_and_name (colors : List RGB) (b : Bool)
    (p : PosInput) (bit rev : Bool) (nm : String)
    (h : isErr (create_colormap colors b p bit rev nm) = false) :
    ∃ g : Gradient,
      create_colormap colors b p bit rev nm = .ok g ∧
      g.resolution = 256 ∧ g.gname = nm := by
  obtain ⟨g, hg⟩ := (isErr_false_iff _).1 h
  obtain ⟨pos, -, hshape⟩ := create_colormap_ok_inv colors b p bit rev nm g hg
  subst hshape
  exact ⟨_, hg, rfl, rfl⟩

theorem C8_resolution_256_and_name_witness :
    isErr (create_colormap [((0 : ℚ), 0, 1)] true .noPos false false
      "my_scheme") = false ∧
    ∃ g : Gradient,
      create_colormap [((0 : ℚ), 0, 1)] true .noPos false false "my_scheme"
        = .ok g ∧
      g.resolution = 256 ∧ g.gname = "my_scheme" :=
  ⟨rfl,
   C8_resolution_256_and_name [((0 : ℚ), 0, 1)] true .noPos false false
     "my_scheme" rfl⟩

/-- C4: with bit=True, every channel value of every anchor in the result
equals the corresponding input channel value (after the optional reversal)
divided by 255, in both the left-limit and right-limit slots. -/
theorem C4_bit_divides_by_255 (colors : List RGB) (b : Bool) (p : PosInput)
    (rev : Bool) (nm : String)
    (h : isErr (create_colormap colors b p true rev nm) = false) :
    ∃ g : Gradient,
      create_colormap colors b p true rev nm = .ok g ∧
      g.green.length = g.red.length ∧
      g.blue.length = g.red.length ∧
      g.red.length ≤ (if rev then colors.reverse else colors).length ∧
      ∀ i : ℕ, i < g.red.length →
        (g.red.getD i (0, 0, 0)).2.1
          = ((if rev then colors.reverse else colors).getD i (0, 0, 0)).1 / 255 ∧
        (g.red.getD i (0, 0, 0)).2.2
          = ((if rev then colors.reverse else colors).getD i (0, 0, 0)).1 / 255 ∧
        (g.green.getD i (0, 0, 0)).2.1
          = ((if rev then colors.reverse else colors).getD i (0, 0, 0)).2.1 / 255 ∧
        (g.green.getD i (0, 0, 0)).2.2
          = ((if rev then colors.reverse else colors).getD i (0, 0, 0)).2.1 / 255 ∧
        (g.blue.getD i (0, 0, 0)).2.1
          = ((if rev then colors.reverse else colors).getD i (0, 0, 0)).2.2 / 255 ∧
        (g.blue.getD i (0, 0, 0)).2.2
          = ((if rev then colors.reverse else colors).getD i (0, 0, 0)).2.2 / 255 := by
  obtain ⟨g, hg⟩ := (isErr_false_iff _).1 h
  obtain ⟨pos, -, hshape⟩ := create_colormap_ok_inv colors b p true rev nm g hg
  have hcs : (if true then (if rev then colors.reverse else colors).map scale255
      else (if rev then colors.reverse else colors))
      = (if rev then colors.reverse else colors).map scale255 := if_pos rfl
  rw [hcs] at hshape
  subst hshape
  refine ⟨_, hg, ?_, ?_, ?_, ?_⟩
  · rw [gradientOf_green_length, gradientOf_red_length]
  · rw [gradientOf_blue_length, gradientOf_red_length]
  · rw [gradientOf_red_length, List.length_map]
    exact min_le_right _ _
  · intro i hi
    rw [gradientOf_red_length, List.length_map] at hi
    have hip : i < pos.length := lt_of_lt_of_le hi (min_le_left _ _)
    have hic : i < (if rev then colors.reverse else colors).length :=
      lt_of_lt_of_le hi (min_le_right _ _)
    have hic' :
        i < ((if rev then colors.reverse else colors).map scale255).length := by
      rw [List.length_map]; exact hic
    have hmap : ((if rev then colors.reverse else colors).map scale255).getD i
        (0, 0, 0)
        = scale255 ((if rev then colors.reverse else colors).getD i (0, 0, 0)) := by
      rw [List.getD_eq_getElem _ _ hic', List.getElem_map,
        List.getD_eq_getElem _ _ hic]
    rw [gradientOf_red_getD nm pos _ i hip hic',
      gradientOf_green_getD nm pos _ i hip hic',
      gradientOf_blue_getD nm pos _ i hip hic', hmap]
    exact ⟨rfl, rfl, rfl, rfl, rfl, rfl⟩

theorem C4_bit_divides_by_255_witness :
    isErr (create_colormap [((255 : ℚ), 0, 0), (0, 0, 255)] false .noPos true
      false "custom_colormap") = false ∧
    ∃ g : Gradient,
      create_colormap [((255 : ℚ), 0, 0), (0, 0, 255)] false .noPos true false
        "custom_colormap" = .ok g ∧
      g.green.length = g.red.length ∧
      g.blue.length = g.red.length ∧
      g.red.length ≤ ([((255 : ℚ), 0, 0), (0, 0, 255)] : List RGB).length ∧
      ∀ i : ℕ, i < g.red.length →
        (g.red.getD i (0, 0, 0)).2.1
          = (([((255 : ℚ), 0, 0), (0, 0, 255)] : List RGB).getD i (0, 0, 0)).1 / 255 ∧
        (g.red.getD i (0, 0, 0)).2.2
          = (([((255 : ℚ), 0, 0), (0, 0, 255)] : List RGB).getD i (0, 0, 0)).1 / 255 ∧
        (g.green.getD i (0, 0, 0)).2.1
          = (([((255 : ℚ), 0, 0), (0, 0, 255)] : List RGB).getD i (0, 0, 0)).2.1 / 255 ∧
        (g.green.getD i (0, 0, 0)).2.2
          = (([((255 : ℚ), 0, 0), (0, 0, 255)] : List RGB).getD i (0, 0, 0)).2.1 / 255 ∧
        (g.blue.getD i (0, 0, 0)).2.1
          = (([((255 : ℚ), 0, 0), (0, 0, 255)] : List RGB).getD i (0, 0, 0)).2.2 / 255 ∧
        (g.blue.getD i (0, 0, 0)).2.2
          = (([((255 : ℚ), 0, 0), (0, 0, 255)] : List RGB).getD i (0, 0, 0)).2.2 / 255 :=
  ⟨rfl,
   C4_bit_divides_by_255 [((255 : ℚ), 0, 0), (0, 0, 255)] false .noPos false
     "custom_colormap" rfl⟩

/-- C9: for every parsed RGB table, colormap_tuple with return_cmap=True
returns exactly the colormap obtained by passing colormap_tuple's own
tuple-list output to create_colormap with 8-bit normalization enabled. -/
theorem C9_roundtrip (txt : List RGB) (rt rt' : Bool) :
    colormap_tuple txt rt false = .tuples (extractTuples txt) ∧
    colormap_tuple txt rt' true
      = .cmap (create_colormap (extractTuples txt) false .noPos true false
        "custom_colormap") :=
  ⟨rfl, rfl⟩

/-- C10: positions supplied as a plain Python list shorter than the color
list raise no error; the gradient silently keeps only the first
len(positions) anchor pairs and drops the remaining colors. -/
theorem C10_pylist_truncates (colors : List RGB) (b : Bool) (ps : List ℚ)
    (nm : String) (h : ps.length < colors.length) :
    ∃ g : Gradient,
      create_colormap colors b (.pylist ps) false false nm = .ok g ∧
      g.red.length = ps.length ∧ g.green.length = ps.length ∧
      g.blue.length = ps.length ∧
      g.red = (ps.zip colors).map (fun pc => (pc.1, pc.2.1, pc.2.1)) ∧
      g.green = (ps.zip colors).map (fun pc => (pc.1, pc.2.2.1, pc.2.2.1)) ∧
      g.blue = (ps.zip colors).map (fun pc => (pc.1, pc.2.2.2, pc.2.2.2)) := by
  have hok : create_colormap colors b (.pylist ps) false false nm
      = .ok (gradientOf nm ps colors) := by
    simpa using create_colormap_eq_of_resolve colors b (.pylist ps) false false
      nm ps (resolvePos_pylist ps _)
  refine ⟨_, hok, ?_, ?_, ?_, rfl, rfl, rfl⟩
  · rw [gradientOf_red_length]; exact min_eq_left h.le
  · rw [gradientOf_green_length]; exact min_eq_left h.le
  · rw [gradientOf_blue_length]; exact min_eq_left h.le

theorem C10_pylist_truncates_witness :
    ([(0 : ℚ)] : List ℚ).length
      < ([((0 : ℚ), 0, 0), (1, 1, 1)] : List RGB).length ∧
    ∃ g : Gradient,
      create_colormap [((0 : ℚ), 0, 0), (1, 1, 1)] false (.pylist [0]) false
        false "custom_colormap" = .ok g ∧
      g.red.length = 1 ∧ g.green.length = 1 ∧ g.blue.length = 1 ∧
      g.red = (([(0 : ℚ)] : List ℚ).zip
        ([((0 : ℚ), 0, 0), (1, 1, 1)] : List RGB)).map
          (fun pc => (pc.1, pc.2.1, pc.2.1)) ∧
      g.green = (([(0 : ℚ)] : List ℚ).zip
        ([((0 : ℚ), 0, 0), (1, 1, 1)] : List RGB)).map
          (fun pc => (pc.1, pc.2.2.1, pc.2.2.1)) ∧
      g.blue = (([(0 : ℚ)] : List ℚ).zip
        ([((0 : ℚ), 0, 0), (1, 1, 1)] : List RGB)).map
          (fun pc => (pc.1, pc.2.2.2, pc.2.2.2)) :=
  ⟨by decide,
   C10_pylist_truncates [((0 : ℚ), 0, 0), (1, 1, 1)] false [0]
     "custom_colormap" (by decide)⟩

/-- C1 counterexample: a positions list of length 2 against 3 colors,
supplied as a plain Python list, raises no error at all — refuting the
claim that a length mismatch raises regardless of container type. -/
theorem C1_counterexample :
    ([(0 : ℚ), 1] : List ℚ).length
      ≠ ([((0 : ℚ), 0, 0), (1, 1, 1), (2, 2, 2)] : List RGB).length ∧
    isErr (create_colormap [((0 : ℚ), 0, 0), (1, 1, 1), (2, 2, 2)] false
      (.pylist [0, 1]) false false "custom_colormap") = false :=
  ⟨by decide, rfl⟩

/-- C1 (amended): a length mismatch raises ValueError exactly when the
positions are supplied as a NumPy ndarray; list-supplied positions skip
the validation branch entirely. -/
theorem C1_ndarray_length_mismatch_raises (colors : List RGB) (b : Bool)
    (ps : List ℚ) (bit rev : Bool) (nm : String)
    (h : ps.length ≠ colors.length) :
    create_colormap colors b (.ndarray ps) bit rev nm
      = .error "position length must be the same as colors" := by
  have hbne :
      (ps.length != (if rev then colors.reverse else colors).length) = true := by
    rw [length_if_reverse]; exact bne_iff_ne.mpr h
  have hres : resolvePos (.ndarray ps)
      (if rev then colors.reverse else colors).length
      = .error "position length must be the same as colors" := by
    simp [resolvePos, hbne]
  simp only [create_colormap, create_colormap_run, hres]

theorem C1_ndarray_length_mismatch_raises_witness :
    ([(0 : ℚ), 1] : List ℚ).length
      ≠ ([((0 : ℚ), 0, 0), (1, 1, 1), (2, 2, 2)] : List RGB).length ∧
    create_colormap [((0 : ℚ), 0, 0), (1, 1, 1), (2, 2, 2)] true
      (.ndarray [0, 1]) true false "custom_colormap"
      = .error "position length must be the same as colors" :=
  ⟨by decide,
   C1_ndarray_length_mismatch_raises [((0 : ℚ), 0, 0), (1, 1, 1), (2, 2, 2)]
     true [0, 1] true false "custom_colormap" (by decide)⟩

/-- C2 counterexample: positions of matching length with BOTH endpoints
wrong (0.5 is not close to 0, 0.7 is not close to 1), supplied as a plain
Python list, raise no error — refuting the claim that with matching length
the endpoint error fires exactly when both endpoints are wrong. -/
theorem C2_counterexample :
    ([(1 / 2 : ℚ), 7 / 10] : List ℚ).length
      = ([((0 : ℚ), 0, 0), (1, 1, 1)] : List RGB).length ∧
    npIsClose (1 / 2 : ℚ) 0 = false ∧
    npIsClose (7 / 10 : ℚ) 1 = false ∧
    isErr (create_colormap [((0 : ℚ), 0, 0), (1, 1, 1)] false
      (.pylist [1 / 2, 7 / 10]) false false "custom_colormap") = false := by
  refine ⟨by decide, ?_, ?_, rfl⟩
  · simp only [npIsClose, decide_eq_false_iff_not, sub_zero, abs_zero,
      mul_zero, add_zero]
    rw [abs_of_nonneg (by norm_num : (0 : ℚ) ≤ 1 / 2)]
    norm_num
  · simp only [npIsClose, decide_eq_false_iff_not, abs_one, mul_one]
    rw [abs_of_nonpos (by norm_num : (7 / 10 : ℚ) - 1 ≤ 0)]
    norm_num

/-- C2 (amended): for positions supplied as a NumPy ndarray of matching
length, the endpoint error is raised exactly when both the first position
is not close to 0 AND the last is not close to 1 (one wrong endpoint alone
raises nothing); list-supplied positions are never endpoint-validated. -/
theorem C2_ndarray_endpoint_and (colors : List RGB) (b : Bool) (ps : List ℚ)
    (bit rev : Bool) (nm : String) (h : ps.length = colors.length) :
    (isErr (create_colormap colors b (.ndarray ps) bit rev nm) = true
      ↔ npIsClose (ps.headD 0) 0 = false ∧ npIsClose (ps.getLastD 0) 1 = false) := by
  have hres : resolvePos (.ndarray ps)
      (if rev then colors.reverse else colors).length
      = if (!npIsClose (ps.headD 0) 0 && !npIsClose (ps.getLastD 0) 1) then
          .error "position must start with 0 and end with 1"
        else .ok ps := by
    have hbne :
        (ps.length != (if rev then colors.reverse else colors).length)
          = false := by
      rw [length_if_reverse]; simp [h]
    simp [resolvePos, hbne]
  cases h0 : npIsClose (ps.headD 0) 0 <;>
    cases h1 : npIsClose (ps.getLastD 0) 1 <;>
      rw [h0, h1] at hres <;> simp at hres <;>
        simp [create_colormap, create_colormap_run, hres, isErr, h0, h1]

theorem C2_ndarray_endpoint_and_witness :
    ([(0 : ℚ), 1 / 2] : List ℚ).length
      = ([((0 : ℚ), 0, 0), (1, 1, 1)] : List RGB).length ∧
    (isErr (create_colormap [((0 : ℚ), 0, 0), (1, 1, 1)] false
        (.ndarray [0, 1 / 2]) false false "custom_colormap") = true
      ↔ npIsClose (([(0 : ℚ), 1 / 2] : List ℚ).headD 0) 0 = false ∧
        npIsClose (([(0 : ℚ), 1 / 2] : List ℚ).getLastD 0) 1 = false) :=
  ⟨by decide,
   C2_ndarray_endpoint_and [((0 : ℚ), 0, 0), (1, 1, 1)] false [0, 1 / 2]
     false false "custom_colormap" (by decide)⟩

/-- C6 counterexample: when colors is passed as a NumPy array and bit=True,
the caller's array is mutated in place (255 becomes 255/255 = 1) — refuting
the claim that create_colormap never modifies the caller's arrays. -/
theorem C6_counterexample :
    callerColorsAfter [((255 : ℚ), 0, 0)] true .noPos true false
      "custom_colormap" ≠ [((255 : ℚ), 0, 0)] := by
  simp only [callerColorsAfter, create_colormap_run, resolvePos, scale255]
  intro heq
  have h1 : (255 : ℚ) / 255 = 255 := congrArg (fun l => (l.headD (0, 0, 0)).1) heq
  norm_num at h1

/-- C6 (amended): create_colormap leaves the caller's arrays unchanged in
every case except one: when colors is passed as a NumPy ndarray with
bit=True and no validation error is raised, the caller's colors array ends
up with every channel divided by 255 (mutated in place by line 67). -/
theorem C6_mutates_iff_ndarray_bit (colors : List RGB) (b : Bool)
    (p : PosInput) (bit rev : Bool) (nm : String) :
    callerColorsAfter colors b p bit rev nm
      = if b && bit && !isErr (create_colormap colors b p bit rev nm)
        then colors.map scale255 else colors := by
  unfold callerColorsAfter create_colormap create_colormap_run
  cases hres : resolvePos p (if rev then colors.reverse else colors).length with
  | error e => simp [isErr]
  | ok pos => cases b <;> cases bit <;> simp [isErr]

end CustomColormaps
